import Mathlib

/-!
Shallow embedding of the read-only SQLite-file access layer of this repository
(varint codec, serial-type table, record codec, page decoder, table B-tree
navigator, index B-tree navigator), together with theorems settling the claims
about it.

Modeling conventions:
* A `Uint8Array` is a `List Nat` of byte values; reading an out-of-range index
  yields JS `undefined`, which every use site here coerces (via `&`, `|` or
  arithmetic) to 0, so out-of-range reads are modeled by `List.getD _ _ 0`.
* JS bitwise operators (`<<`, `|`, `&`) work on 32-bit two's-complement
  integers (ToInt32); they are modeled exactly by `jsShl`, `jsOr`, `jsAnd`.
* The database file is a `List Nat` of bytes; `fs` reads past the end of the
  file leave the freshly zero-initialized target buffer at 0, modeled by
  `getD _ _ 0` as well.
* The recursive tree walks take an explicit `fuel` bound standing for the
  (finite) recursion depth of the source; the source recursion is bounded by
  the height of the B-tree.
-/

namespace STs

/-- JS ToUint32: the 32-bit two's-complement unsigned view of an integral JS number. -/
def toUint32 (i : Int) : Nat := (i % (4294967296 : Int)).toNat

/-- Reinterpret a value in `[0, 2^32)` as a signed 32-bit (Int32) JS number. -/
def ofInt32 (n : Nat) : Int :=
  if n < 2147483648 then (n : Int) else (n : Int) - 4294967296

/-- JS `a << k` for a literal shift amount `k < 32`: ToInt32 the operand,
shift modulo 2^32, reinterpret as Int32. -/
def jsShl (a : Int) (k : Nat) : Int := ofInt32 (toUint32 a * 2 ^ k % 4294967296)

/-- JS `a | b`: bitwise or of the ToInt32 views, reinterpreted as Int32. -/
def jsOr (a b : Int) : Int := ofInt32 (toUint32 a ||| toUint32 b)

/-- JS `a & b`: bitwise and of the ToInt32 views, reinterpreted as Int32. -/
def jsAnd (a b : Int) : Int := ofInt32 (toUint32 a &&& toUint32 b)

/-- The loop of `readVarint` (src/app/utils/varint.ts), with loop index `i` and
accumulator `value`.  The source iterates `i` from 0 to 8 and treats the 9th
byte (`i === 8`) as contributing all 8 bits; `left = 8 - i` counts the
iterations remaining before that 9th byte, which makes the recursion structural
(so concrete varints compute definitionally); `left = 0` is exactly the
source's `i === 8` branch. -/
def readVarintLoop (buffer : List Nat) (offset : Nat) : Nat → Nat → Int → Int × Nat
  | 0, i, value => (jsOr (jsShl value 8) ((buffer.getD (offset + i) 0 : Nat) : Int), i + 1)
  | left + 1, i, value =>
    let byte : Int := (buffer.getD (offset + i) 0 : Nat)
    let v := jsOr (jsShl value 7) (jsAnd byte 127)
    if jsAnd byte 128 = 0 then (v, i + 1)
    else readVarintLoop buffer offset left (i + 1) v

/-- `readVarint` (src/app/utils/varint.ts): decode one SQLite varint starting at
`offset`; returns the decoded value and the number of bytes consumed. -/
def readVarint (buffer : List Nat) (offset : Nat) : Int × Nat :=
  readVarintLoop buffer offset 8 0 0

/-- `getSerialTypeSize` (src/app/utils/serialTypes.ts). -/
def getSerialTypeSize (serialType : Int) : Nat :=
  if serialType = 0 then 0
  else if serialType = 1 then 1
  else if serialType = 2 then 2
  else if serialType = 3 then 3
  else if serialType = 4 then 4
  else if serialType = 5 then 6
  else if serialType = 6 then 8
  else if serialType = 7 then 8
  else if serialType = 8 then 0
  else if serialType = 9 then 0
  else if serialType = 10 ∨ serialType = 11 then 0
  else if 12 ≤ serialType ∧ serialType % 2 = 0 then ((serialType - 12) / 2).toNat
  else if 13 ≤ serialType ∧ serialType % 2 = 1 then ((serialType - 13) / 2).toNat
  else 0

/-- `DataView.getUint16(i, false)` (big-endian) over a byte buffer. -/
def getUint16 (buffer : List Nat) (i : Nat) : Nat :=
  buffer.getD i 0 * 256 + buffer.getD (i + 1) 0

/-- `DataView.getUint32(i, false)` (big-endian) over a byte buffer. -/
def getUint32 (buffer : List Nat) (i : Nat) : Nat :=
  buffer.getD i 0 * 16777216 + buffer.getD (i + 1) 0 * 65536 +
    buffer.getD (i + 2) 0 * 256 + buffer.getD (i + 3) 0

/-- `DataView.getInt8(i)`. -/
def getInt8 (buffer : List Nat) (i : Nat) : Int :=
  let b := buffer.getD i 0
  if b < 128 then (b : Int) else (b : Int) - 256

/-- `DataView.getInt16(i, false)` (big-endian, signed). -/
def getInt16 (buffer : List Nat) (i : Nat) : Int :=
  let u := getUint16 buffer i
  if u < 32768 then (u : Int) else (u : Int) - 65536

/-- `DataView.getInt32(i, false)` (big-endian, signed). -/
def getInt32 (buffer : List Nat) (i : Nat) : Int :=
  let u := getUint32 buffer i
  if u < 2147483648 then (u : Int) else (u : Int) - 4294967296

/-- `Number(view.getBigInt64(i, false))`: big-endian signed 64-bit decode.
The `Number(..)` rounding that JS applies beyond 2^53 is not modeled; no claim
involves 8-byte integer values of that magnitude. -/
def getInt64 (buffer : List Nat) (i : Nat) : Int :=
  let u := getUint32 buffer i * 4294967296 + getUint32 buffer (i + 4)
  if u < 9223372036854775808 then (u : Int) else (u : Int) - 18446744073709551616

/-- `new TextDecoder().decode(bytes)`: modeled as the byte-to-character string,
which is exact for ASCII payloads (multi-byte UTF-8 sequences are not
re-assembled into single characters). -/
def decodeText (bs : List Nat) : String :=
  String.mk (bs.map (fun b => Char.ofNat b))

/-- `view.getFloat64(0, false).toString()`: IEEE-754 binary64 text rendering is
floating point and is not modeled; the eight raw bytes are kept verbatim under
a tag.  No claim depends on the rendering of a float value. -/
def floatStr (bs : List Nat) : String := "f64:" ++ toString bs

/-- The 3-byte signed-integer branch shared verbatim by `parseSerialValue`
(src/app/utils/serialTypes.ts) and the index scanner: build the 24-bit value
with JS shifts and ors, then sign-extend with `|= 0xFF000000` when bit 23 is
set (the `if (intValue & 0x800000)` truthiness test is `≠ 0`). -/
def signed24 (buffer : List Nat) (offset : Nat) : Int :=
  let b0 : Int := (buffer.getD offset 0 : Nat)
  let b1 : Int := (buffer.getD (offset + 1) 0 : Nat)
  let b2 : Int := (buffer.getD (offset + 2) 0 : Nat)
  let v := jsOr (jsOr (jsShl b0 16) (jsShl b1 8)) b2
  if jsAnd v 8388608 ≠ 0 then jsOr v 4278190080 else v

/-- `parseSerialValue` (src/app/utils/serialTypes.ts). -/
def parseSerialValue (buffer : List Nat) (offset : Nat) (serialType : Int) : String :=
  let size := getSerialTypeSize serialType
  if serialType = 0 then ""
  else if serialType = 8 then "0"
  else if serialType = 9 then "1"
  else if 1 ≤ serialType ∧ serialType ≤ 6 then
    let intValue : Int :=
      if size = 1 then getInt8 buffer offset
      else if size = 2 then getInt16 buffer offset
      else if size = 3 then signed24 buffer offset
      else if size = 4 then getInt32 buffer offset
      else if size = 6 then getInt16 buffer offset * 4294967296 + (getUint32 buffer (offset + 2) : Int)
      else if size = 8 then getInt64 buffer offset
      else 0
    toString intValue
  else if serialType = 7 then floatStr ((buffer.drop offset).take 8)
  else decodeText ((buffer.drop offset).take size)

/-- A decoded table row: the out-of-band row key and the ordered column values. -/
structure Row where
  rowid : Int
  values : List String
deriving DecidableEq

/-- The record-header loop shared by the record codec and the index-entry
parser: read serial-type varints while `offset - headerStart < headerSize`.
Returns the serial types in order and the final offset (start of the body).
Every iteration consumes at least one byte, so at every call site (where
`offset - headerStart ≥ 1` already holds) the loop runs at most
`headerSize - 1` times; the structural `fuel` therefore never runs out there
and only serves to make concrete records compute definitionally. -/
def readSerialTypesLoop (buffer : List Nat) (headerStart : Nat) (headerSize : Int) :
    Nat → Nat → List Int × Nat
  | 0, offset => ([], offset)
  | fuel + 1, offset =>
    if (offset : Int) - (headerStart : Int) < headerSize then
      let p := readVarint buffer offset
      let rest := readSerialTypesLoop buffer headerStart headerSize fuel (offset + p.2)
      (p.1 :: rest.1, rest.2)
    else ([], offset)

/-- The record-header loop entered as in the source, with the fuel instantiated
to the decoded header size. -/
def readSerialTypes (buffer : List Nat) (offset headerStart : Nat) (headerSize : Int) :
    List Int × Nat :=
  readSerialTypesLoop buffer headerStart headerSize headerSize.toNat offset

/-- `parseRecord` (record codec): payload-length varint (informational), row key
varint, header-length varint, serial-type list, then one value per serial type
with the running offset advanced by that type's width. -/
def parseRecord (buffer : List Nat) : Row :=
  let p1 := readVarint buffer 0
  let o1 := 0 + p1.2
  let p2 := readVarint buffer o1
  let o2 := o1 + p2.2
  let p3 := readVarint buffer o2
  let o3 := o2 + p3.2
  let headerStart := o3 - p3.2
  let sts := readSerialTypes buffer o3 headerStart p3.1
  let vals := sts.1.foldl
    (fun (acc : List String × Nat) serialType =>
      (acc.1 ++ [parseSerialValue buffer acc.2 serialType],
        acc.2 + getSerialTypeSize serialType))
    ([], sts.2)
  ⟨p2.1, vals.1⟩

/-- `parseIndexValue` (index navigator): render one column value of an index
record; same decode rules as `parseSerialValue`. -/
def parseIndexValue (cellBuffer : List Nat) (offset : Nat) (serialType : Int) : String :=
  let size := getSerialTypeSize serialType
  if serialType = 0 then ""
  else if serialType = 8 then "0"
  else if serialType = 9 then "1"
  else if 1 ≤ serialType ∧ serialType ≤ 6 then
    let intValue : Int :=
      if size = 1 then getInt8 cellBuffer offset
      else if size = 2 then getInt16 cellBuffer offset
      else if size = 3 then signed24 cellBuffer offset
      else if size = 4 then getInt32 cellBuffer offset
      else if size = 6 then getInt16 cellBuffer offset * 4294967296 + (getUint32 cellBuffer (offset + 2) : Int)
      else if size = 8 then getInt64 cellBuffer offset
      else 0
    toString intValue
  else if serialType = 7 then floatStr ((cellBuffer.drop offset).take 8)
  else decodeText ((cellBuffer.drop offset).take size)

/-- `parseIndexEntry` (index navigator): from a cell at `startOffset`, decode the
payload-size varint, the record header, the first column (the indexed value,
rendered as a string) and — when the record has at least two columns and its
last column is an integer serial type 1..6 — the trailing rowid column. -/
def parseIndexEntry (cellBuffer : List Nat) (startOffset : Nat) : String × Option Int :=
  let p1 := readVarint cellBuffer startOffset
  let o1 := startOffset + p1.2
  let p2 := readVarint cellBuffer o1
  let o2 := o1 + p2.2
  let headerStart := o2 - p2.2
  let sts := readSerialTypes cellBuffer o2 headerStart p2.1
  let stsL := sts.1
  let o3 := sts.2
  let indexedValue :=
    if 1 ≤ stsL.length then parseIndexValue cellBuffer o3 (stsL.getD 0 0) else ""
  let o4 := if 1 ≤ stsL.length then o3 + getSerialTypeSize (stsL.getD 0 0) else o3
  let rowid : Option Int :=
    if 2 ≤ stsL.length then
      let o5 := o4 + (((stsL.drop 1).dropLast).map getSerialTypeSize).sum
      let rowidSerialType := stsL.getD (stsL.length - 1) 0
      let rowidSize := getSerialTypeSize rowidSerialType
      if 1 ≤ rowidSerialType ∧ rowidSerialType ≤ 6 ∧ 0 < rowidSize then
        if rowidSize = 1 then some (getInt8 cellBuffer o5)
        else if rowidSize = 2 then some (getInt16 cellBuffer o5)
        else if rowidSize = 3 then some (signed24 cellBuffer o5)
        else if rowidSize = 4 then some (getInt32 cellBuffer o5)
        else if rowidSize = 6 then some (getInt16 cellBuffer o5 * 4294967296 + (getUint32 cellBuffer (o5 + 2) : Int))
        else if rowidSize = 8 then some (getInt64 cellBuffer o5)
        else none
      else none
    else none
  (indexedValue, rowid)

/-- Byte `i` of the database file.  Reads past the end of the file leave the
freshly zero-initialized destination buffer at 0; `Uint8Array` stores bytes
modulo 256. -/
def byteAt (db : List Nat) (i : Nat) : Nat := db.getD i 0 % 256

/-- The `len`-byte buffer produced by one `fileHandler.read` at absolute file
offset `start`. -/
def sliceBuf (db : List Nat) (start : Nat) : Nat → List Nat
  | 0 => []
  | len + 1 => byteAt db start :: sliceBuf db (start + 1) len

/-- `readPageType` (src/app/database/page.ts): the page's leading type byte,
shifted by the 100-byte file header on page 1. -/
def readPageType (db : List Nat) (pageOffset : Nat) (isPage1 : Bool) : Nat :=
  byteAt db (pageOffset + (if isPage1 then 100 else 0))

/-- `readPageHeader` (src/app/database/page.ts): the 16-bit cell count at page
header offset 3. -/
def readPageHeader (db : List Nat) (pageOffset : Nat) (isPage1 : Bool) : Nat :=
  getUint16 (sliceBuf db (pageOffset + (if isPage1 then 100 else 0)) 12) 3

/-- `readRightmostPointer` (src/app/database/page.ts): the 32-bit rightmost
child page number at page header offset 8 of an interior page. -/
def readRightmostPointer (db : List Nat) (pageOffset : Nat) (isPage1 : Bool) : Nat :=
  getUint32 (sliceBuf db (pageOffset + (if isPage1 then 100 else 0)) 12) 8

/-- `readCellPointers` (src/app/database/page.ts): the array of `cellCount`
16-bit cell offsets, starting at byte 12 of the page header on interior pages
and at byte 8 on leaf pages. -/
def readCellPointers (db : List Nat) (pageOffset : Nat) (isPage1 : Bool)
    (cellCount : Nat) (isInterior : Bool) : List Nat :=
  let buffer := sliceBuf db (pageOffset + (if isPage1 then 100 else 0) +
    (if isInterior then 12 else 8)) (cellCount * 2)
  (List.range cellCount).map (fun i => getUint16 buffer (i * 2))

/-- `readCell` (src/app/database/page.ts): the fixed 2000-byte scratch buffer
read at the cell's offset. -/
def readCell (db : List Nat) (pageOffset cellOffset : Nat) : List Nat :=
  sliceBuf db (pageOffset + cellOffset) 2000

/-- `readTableCellsRecursive` (table navigator, full scan).  `fuel` bounds the
recursion depth (the source recursion is bounded by the tree height). -/
def readTableCellsRec : Nat → List Nat → Nat → Nat → List Row
  | 0, _, _, _ => []
  | fuel + 1, db, pageSize, pageNum =>
    let pageOffset := (pageNum - 1) * pageSize
    let isPage1 := pageNum == 1
    let pageType := readPageType db pageOffset isPage1
    if pageType = 13 then
      (readCellPointers db pageOffset isPage1 (readPageHeader db pageOffset isPage1) false).map
        (fun cellOffset => parseRecord (readCell db pageOffset cellOffset))
    else if pageType = 5 then
      ((readCellPointers db pageOffset isPage1 (readPageHeader db pageOffset isPage1) true).flatMap
        (fun cellOffset =>
          readTableCellsRec fuel db pageSize
            (getUint32 (sliceBuf db (pageOffset + cellOffset) 16) 0)))
      ++ readTableCellsRec fuel db pageSize (readRightmostPointer db pageOffset isPage1)
    else []

/-- `readTableCellsFilteredRecursive` (table navigator, filtered scan): same
traversal as the full scan, keeping a leaf record only when its row key is in
the supplied key set (a JS `Set<number>` modeled by list membership). -/
def readTableCellsFilteredRec : Nat → List Nat → Nat → Nat → List Int → List Row
  | 0, _, _, _, _ => []
  | fuel + 1, db, pageSize, pageNum, rowidSet =>
    let pageOffset := (pageNum - 1) * pageSize
    let isPage1 := pageNum == 1
    let pageType := readPageType db pageOffset isPage1
    if pageType = 13 then
      (readCellPointers db pageOffset isPage1 (readPageHeader db pageOffset isPage1) false).flatMap
        (fun cellOffset =>
          let record := parseRecord (readCell db pageOffset cellOffset)
          if rowidSet.contains record.rowid then [record] else [])
    else if pageType = 5 then
      ((readCellPointers db pageOffset isPage1 (readPageHeader db pageOffset isPage1) true).flatMap
        (fun cellOffset =>
          readTableCellsFilteredRec fuel db pageSize
            (getUint32 (sliceBuf db (pageOffset + cellOffset) 16) 0) rowidSet))
      ++ readTableCellsFilteredRec fuel db pageSize (readRightmostPointer db pageOffset isPage1) rowidSet
    else []

/-- The leaf loop of `fetchRowByRowidRecursive`: return the first record in
pointer order whose row key equals the target, else `none`. -/
def fetchLeafLoop (db : List Nat) (pageOffset : Nat) (targetRowid : Int) : List Nat → Option Row
  | [] => none
  | cellOffset :: rest =>
    let record := parseRecord (readCell db pageOffset cellOffset)
    if record.rowid = targetRowid then some record
    else fetchLeafLoop db pageOffset targetRowid rest

/-- The interior loop of `fetchRowByRowidRecursive`: on the first cell whose key
satisfies `targetRowid ≤ key`, return the recursive lookup (`rec`) of its left
child; if the loop exhausts the cells, return the lookup of the rightmost
child. -/
def fetchInteriorLoop (rec : Nat → Option Row) (db : List Nat) (pageOffset : Nat)
    (targetRowid : Int) (rightmost : Nat) : List Nat → Option Row
  | [] => rec rightmost
  | cellOffset :: rest =>
    let cellBuffer := sliceBuf db (pageOffset + cellOffset) 16
    let leftChildPage := getUint32 cellBuffer 0
    let key := (readVarint cellBuffer 4).1
    if targetRowid ≤ key then rec leftChildPage
    else fetchInteriorLoop rec db pageOffset targetRowid rightmost rest

/-- `fetchRowByRowidRecursive` (table navigator, point lookup). -/
def fetchRowByRowidRec : Nat → List Nat → Nat → Nat → Int → Option Row
  | 0, _, _, _, _ => none
  | fuel + 1, db, pageSize, pageNum, targetRowid =>
    let pageOffset := (pageNum - 1) * pageSize
    let isPage1 := pageNum == 1
    let pageType := readPageType db pageOffset isPage1
    if pageType = 13 then
      fetchLeafLoop db pageOffset targetRowid
        (readCellPointers db pageOffset isPage1 (readPageHeader db pageOffset isPage1) false)
    else if pageType = 5 then
      fetchInteriorLoop (fun p => fetchRowByRowidRec fuel db pageSize p targetRowid) db pageOffset
        targetRowid (readRightmostPointer db pageOffset isPage1)
        (readCellPointers db pageOffset isPage1 (readPageHeader db pageOffset isPage1) true)
    else none

/-- Lexicographic comparison of character lists by character code. -/
def charListLt : List Char → List Char → Bool
  | _, [] => false
  | [], _ :: _ => true
  | c :: cs, d :: ds =>
    if c.toNat < d.toNat then true
    else if d.toNat < c.toNat then false
    else charListLt cs ds

/-- JS `a < b` on strings: lexicographic code-unit comparison.  On the
basic-multilingual-plane strings this embedding produces (all decoded bytes map
to characters below 256), code-unit order is character-code order. -/
def jsStrLt (a b : String) : Bool := charListLt a.data b.data

/-- JS `a <= b` on strings: the string order is total, so it is the negation of
`b < a`. -/
def jsStrLe (a b : String) : Bool := !jsStrLt b a

/-- The leaf loop of `scanIndexRecursive`: collect the rowid of every entry
whose indexed value equals the search value and whose rowid was decoded. -/
def scanIndexLeafLoop (db : List Nat) (pageOffset : Nat) (searchValue : String) :
    List Nat → List Int
  | [] => []
  | cellOffset :: rest =>
    let e := parseIndexEntry (readCell db pageOffset cellOffset) 0
    match e.2 with
    | some r =>
      if e.1 = searchValue then r :: scanIndexLeafLoop db pageOffset searchValue rest
      else scanIndexLeafLoop db pageOffset searchValue rest
    | none => scanIndexLeafLoop db pageOffset searchValue rest

/-- The interior loop of `scanIndexRecursive`: for each cell in pointer order,
descend (`rec`) into its left child when `searchValue ≤ keyValue`, and stop the
loop (flag `true`) as soon as `searchValue < keyValue` strictly. -/
def scanIndexInteriorLoop (rec : Nat → List Int) (db : List Nat) (pageOffset : Nat)
    (searchValue : String) : List Nat → List Int × Bool
  | [] => ([], false)
  | cellOffset :: rest =>
    let cellBuffer := sliceBuf db (pageOffset + cellOffset) 1000
    let leftChildPage := getUint32 cellBuffer 0
    let keyValue := (parseIndexEntry cellBuffer 4).1
    let here := if jsStrLe searchValue keyValue then rec leftChildPage else []
    if jsStrLt searchValue keyValue then (here, true)
    else
      let more := scanIndexInteriorLoop rec db pageOffset searchValue rest
      (here ++ more.1, more.2)

/-- `scanIndexRecursive` (index navigator, equality scan): the rightmost child
is descended only when the interior loop did not stop on a strictly greater
key. -/
def scanIndexRec : Nat → List Nat → Nat → Nat → String → List Int
  | 0, _, _, _, _ => []
  | fuel + 1, db, pageSize, pageNum, searchValue =>
    let pageOffset := (pageNum - 1) * pageSize
    let isPage1 := pageNum == 1
    let pageType := readPageType db pageOffset isPage1
    if pageType = 10 then
      scanIndexLeafLoop db pageOffset searchValue
        (readCellPointers db pageOffset isPage1 (readPageHeader db pageOffset isPage1) false)
    else if pageType = 2 then
      let r := scanIndexInteriorLoop (fun p => scanIndexRec fuel db pageSize p searchValue)
        db pageOffset searchValue
        (readCellPointers db pageOffset isPage1 (readPageHeader db pageOffset isPage1) true)
      if r.2 then r.1
      else r.1 ++ scanIndexRec fuel db pageSize (readRightmostPointer db pageOffset isPage1) searchValue
    else []

/-! Specification-side definitions, written from the spec's words, used to
compare the embedded code against the specified behavior. -/

/-- The big-endian base-128 digit groups of `v`, computed with a structural
fuel of division steps (9 suffices for every value below 2^64) so that
concrete encodings compute definitionally; at least one group is produced. -/
def varintGroupsF : Nat → Nat → List Nat
  | 0, v => [v]
  | fuel + 1, v => if v < 128 then [v] else varintGroupsF fuel (v / 128) ++ [v % 128]

/-- The big-endian base-128 digit groups of `v` (at least one group). -/
def varintGroups (v : Nat) : List Nat := varintGroupsF 9 v

/-- Set the continuation (high) bit on every group but the last. -/
def markCont : List Nat → List Nat
  | [] => []
  | [g] => [g]
  | g :: gs => (g + 128) :: markCont gs

/-- The well-formed varint encoding described by the spec: each of the first 8
bytes contributes its low 7 bits with the high bit meaning "more bytes
follow"; a 9th byte, reached only after 8 continuation bytes, contributes all
8 bits.  Values below `2^56` use the minimal number of 7-bit groups; larger
values use 8 continuation bytes carrying `v / 256` (left-padded with zero
groups) followed by the literal low byte. -/
def specEncodeVarint (v : Nat) : List Nat :=
  if v < 72057594037927936 then markCont (varintGroups v)
  else
    let gs := varintGroups (v / 256)
    (List.replicate (8 - gs.length) 0 ++ gs).map (fun g => g + 128) ++ [v % 256]

/-- Specification-side record-body decoding: one value per serial-type code, in
header order, with the running offset advanced by exactly that code's width. -/
def decodeValuesSpec (buffer : List Nat) : List Int → Nat → List String
  | [], _ => []
  | serialType :: sts, off =>
    parseSerialValue buffer off serialType ::
      decodeValuesSpec buffer sts (off + getSerialTypeSize serialType)

/-! Concrete databases used as witnesses.  Every page is 64 bytes; page 1 is
unused filler so that no traversal needs the 100-byte file-header shift. -/

/-- A single-page table B-tree: one table-leaf page (page 2, type 0x0d) holding
the rows `(1, "aa")`, `(2, "ab")`, `(3, "ac")` in pointer order. -/
def tableDb1 : List Nat :=
  List.replicate 64 0 ++
  ([13, 0, 0, 0, 3, 0, 0, 0, 0, 20, 0, 28, 0, 36, 0, 0, 0, 0, 0, 0,
    4, 1, 2, 17, 97, 97, 0, 0,
    4, 2, 2, 17, 97, 98, 0, 0,
    4, 3, 2, 17, 97, 99] ++ List.replicate 22 0)

/-- A two-level table B-tree: interior root (page 2, type 0x05) with one cell
(left child page 3, key 2) and rightmost child page 4; page 3 holds rows 1 and
2, page 4 holds row 3. -/
def tableDb2 : List Nat :=
  List.replicate 64 0 ++
  ([5, 0, 0, 0, 1, 0, 0, 0, 0, 0, 0, 4, 0, 16, 0, 0,
    0, 0, 0, 3, 2] ++ List.replicate 43 0) ++
  ([13, 0, 0, 0, 2, 0, 0, 0, 0, 20, 0, 28, 0, 0, 0, 0, 0, 0, 0, 0,
    4, 1, 2, 17, 97, 97, 0, 0,
    4, 2, 2, 17, 97, 98] ++ List.replicate 30 0) ++
  ([13, 0, 0, 0, 1, 0, 0, 0, 0, 20, 0, 0, 0, 0, 0, 0, 0, 0, 0, 0,
    4, 3, 2, 17, 97, 99] ++ List.replicate 38 0)

/-- A two-level index B-tree: interior root (page 2, type 0x02) with one cell
(left child page 3, first-column key "ab", rowid 2) and rightmost child page 4;
page 3 is an index leaf with entries ("aa", 1) and ("ab", 2), page 4 an index
leaf with entry ("ac", 3). -/
def indexDb : List Nat :=
  List.replicate 64 0 ++
  ([2, 0, 0, 0, 1, 0, 0, 0, 0, 0, 0, 4, 0, 16, 0, 0,
    0, 0, 0, 3, 6, 3, 17, 1, 97, 98, 2] ++ List.replicate 37 0) ++
  ([10, 0, 0, 0, 2, 0, 0, 0, 0, 20, 0, 32, 0, 0, 0, 0, 0, 0, 0, 0,
    6, 3, 17, 1, 97, 97, 1, 0, 0, 0, 0, 0,
    6, 3, 17, 1, 97, 98, 2] ++ List.replicate 25 0) ++
  ([10, 0, 0, 0, 1, 0, 0, 0, 0, 20, 0, 0, 0, 0, 0, 0, 0, 0, 0, 0,
    6, 3, 17, 1, 97, 99, 3] ++ List.replicate 37 0)

/-- A database whose page 2 carries the unrecognized page-type byte 0x00. -/
def badDb : List Nat := List.replicate 128 0

/-- The first-column key that `scanIndexRecursive` parses from an index
interior cell at page-relative offset `c` (after the 4-byte left-child
pointer). -/
def idxKeyAt (db : List Nat) (pageOffset c : Nat) : String :=
  (parseIndexEntry (sliceBuf db (pageOffset + c) 1000) 4).1

/-- The left-child page number stored in the first 4 bytes of an index interior
cell at page-relative offset `c`. -/
def idxChildAt (db : List Nat) (pageOffset c : Nat) : Nat :=
  getUint32 (sliceBuf db (pageOffset + c) 1000) 0

/-- The row-key upper bound parsed from a table interior cell at page-relative
offset `c` (varint after the 4-byte left-child pointer). -/
def tblKeyAt (db : List Nat) (pageOffset c : Nat) : Int :=
  (readVarint (sliceBuf db (pageOffset + c) 16) 4).1

/-- The left-child page number stored in the first 4 bytes of a table interior
cell at page-relative offset `c`. -/
def tblChildAt (db : List Nat) (pageOffset c : Nat) : Nat :=
  getUint32 (sliceBuf db (pageOffset + c) 16) 0

/-! Theorems. -/

/-- Each iteration of the varint loop consumes one byte, so with `left`
iterations remaining before the 9th byte the count of consumed bytes lies in
`[i+1, i+left+1]`. -/
theorem readVarintLoop_consumed (buffer : List Nat) (offset : Nat) :
    ∀ (left i : Nat) (value : Int),
      i + 1 ≤ (readVarintLoop buffer offset left i value).2 ∧
        (readVarintLoop buffer offset left i value).2 ≤ i + left + 1 := by
  intro left
  induction left with
  | zero => intro i value; rw [readVarintLoop]; omega
  | succ n ih =>
    intro i value
    rw [readVarintLoop]
    by_cases hb : jsAnd ((buffer.getD (offset + i) 0 : Nat) : Int) 128 = 0
    · simp only [if_pos hb]; omega
    · simp only [if_neg hb]
      have h2 := ih (i + 1)
        (jsOr (jsShl value 7) (jsAnd ((buffer.getD (offset + i) 0 : Nat) : Int) 127))
      omega

/-- `readVarint` consumes at least one byte. -/
theorem readVarint_pos (buffer : List Nat) (offset : Nat) : 1 ≤ (readVarint buffer offset).2 :=
  (readVarintLoop_consumed buffer offset 8 0 0).1

/-- `readVarint` consumes at most nine bytes. -/
theorem readVarint_le_nine (buffer : List Nat) (offset : Nat) : (readVarint buffer offset).2 ≤ 9 :=
  (readVarintLoop_consumed buffer offset 8 0 0).2

/-- C9: for every byte buffer and every starting offset — including offsets at
or beyond the end of the buffer — `readVarint` returns normally (the embedded
function is total, mirroring that the source loop never throws) with a
bytes-consumed count between 1 and 9; an offset at or past the buffer's end
reads the default byte 0, whose clear high bit terminates the loop at once,
giving the result `(0, 1)`. -/
theorem C9_readVarint_safety (buffer : List Nat) (offset : Nat) :
    1 ≤ (readVarint buffer offset).2 ∧ (readVarint buffer offset).2 ≤ 9 ∧
      (buffer.length ≤ offset → readVarint buffer offset = (0, 1)) := by
  refine ⟨readVarint_pos buffer offset, readVarint_le_nine buffer offset, fun h => ?_⟩
  have h0 : buffer.getD (offset + 0) 0 = 0 :=
    List.getD_eq_default buffer 0 (by omega)
  rw [readVarint, readVarintLoop]
  simp only [h0]
  norm_num [jsAnd, jsOr, jsShl, toUint32, ofInt32, Nat.zero_and, Nat.zero_or]

/-- C9 witness: the safety theorem applied at the empty buffer and offset 0,
where the past-the-end hypothesis holds. -/
theorem C9_witness : readVarint ([] : List Nat) 0 = (0, 1) :=
  (C9_readVarint_safety [] 0).2.2 (by decide)

/-- C6: `getSerialTypeSize` realizes exactly the spec's width mapping — 0 for
the null code and the two constant codes 8 and 9; widths 1, 2, 3, 4, 6, 8 for
the integer codes 1..6; 8 for the float code 7; `(code-12)/2` for every even
code ≥ 12; `(code-13)/2` for every odd code ≥ 13 — and, being a function of
the code alone, it is independent of any buffer contents. -/
theorem C6_serialTypeSize_spec :
    getSerialTypeSize 0 = 0 ∧ getSerialTypeSize 8 = 0 ∧ getSerialTypeSize 9 = 0 ∧
      getSerialTypeSize 1 = 1 ∧ getSerialTypeSize 2 = 2 ∧ getSerialTypeSize 3 = 3 ∧
      getSerialTypeSize 4 = 4 ∧ getSerialTypeSize 5 = 6 ∧ getSerialTypeSize 6 = 8 ∧
      getSerialTypeSize 7 = 8 ∧
      (∀ c : Int, 12 ≤ c → c % 2 = 0 → getSerialTypeSize c = ((c - 12) / 2).toNat) ∧
      (∀ c : Int, 13 ≤ c → c % 2 = 1 → getSerialTypeSize c = ((c - 13) / 2).toNat) := by
  refine ⟨by decide, by decide, by decide, by decide, by decide, by decide, by decide,
    by decide, by decide, by decide, fun c h12 hev => ?_, fun c h13 hodd => ?_⟩
  · unfold getSerialTypeSize
    repeat rw [if_neg (by omega)]
    rw [if_pos ⟨h12, hev⟩]
  · unfold getSerialTypeSize
    repeat rw [if_neg (by omega)]
    rw [if_pos ⟨h13, hodd⟩]

/-- C6 witness: the width mapping applied to a concrete even blob code (100)
and a concrete odd text code (101), with the hypotheses discharged. -/
theorem C6_witness : getSerialTypeSize 100 = 44 ∧ getSerialTypeSize 101 = 44 := by
  constructor
  · rw [C6_serialTypeSize_spec.2.2.2.2.2.2.2.2.2.2.1 100 (by decide) (by decide)]; decide
  · rw [C6_serialTypeSize_spec.2.2.2.2.2.2.2.2.2.2.2 101 (by decide) (by decide)]; decide

/-- C3: the claimed round-trip fails on the code.  The well-formed five-byte
encoding of 2^31 = 2147483648 (bytes 0x88 0x80 0x80 0x80 0x00) is decoded by
`readVarint` to -2147483648 with 5 bytes consumed: the JS `<<` and `|`
operators wrap the accumulator to a signed 32-bit integer, so the decoded
value is not 2^31 and re-encoding it cannot reproduce the original bytes. -/
theorem C3_varint_roundtrip_failure :
    specEncodeVarint 2147483648 = [136, 128, 128, 128, 0] ∧
      readVarint [136, 128, 128, 128, 0] 0 = (-2147483648, 5) ∧
      (-2147483648 : Int) ≠ 2147483648 := by
  refine ⟨by decide, by decide, by decide⟩

/-- C4 (amended): a traversal that reads a page whose leading type byte is not
one of the four recognized codes silently skips that page — the full and
filtered table scans contribute no rows from it, the point lookup reports
not-found, and the index scan contributes no row keys — rather than failing
with a decode error (the embedded traversals are total and return normally,
mirroring the source's if/else-if chains, which have no failing branch). -/
theorem C4_unrecognized_page_silently_skipped (fuel : Nat) (db : List Nat)
    (pageSize pageNum : Nat) (rowidSet : List Int) (target : Int) (searchValue : String)
    (h13 : readPageType db ((pageNum - 1) * pageSize) (pageNum == 1) ≠ 13)
    (h5 : readPageType db ((pageNum - 1) * pageSize) (pageNum == 1) ≠ 5)
    (h10 : readPageType db ((pageNum - 1) * pageSize) (pageNum == 1) ≠ 10)
    (h2 : readPageType db ((pageNum - 1) * pageSize) (pageNum == 1) ≠ 2) :
    readTableCellsRec (fuel + 1) db pageSize pageNum = [] ∧
      readTableCellsFilteredRec (fuel + 1) db pageSize pageNum rowidSet = [] ∧
      fetchRowByRowidRec (fuel + 1) db pageSize pageNum target = none ∧
      scanIndexRec (fuel + 1) db pageSize pageNum searchValue = [] := by
  refine ⟨?_, ?_, ?_, ?_⟩
  · rw [readTableCellsRec]; simp only [if_neg h13, if_neg h5]
  · rw [readTableCellsFilteredRec]; simp only [if_neg h13, if_neg h5]
  · rw [fetchRowByRowidRec]; simp only [if_neg h13, if_neg h5]
  · rw [scanIndexRec]; simp only [if_neg h10, if_neg h2]

/-- C4 counterexample: on a concrete database whose root page carries the
unrecognized type byte 0x00, every traversal returns normally with the empty
result (or not-found) — there is no hard decode error, contradicting the claim
that such a page is not silently ignored. -/
theorem C4_counterexample :
    readPageType badDb ((2 - 1) * 64) (2 == 1) = 0 ∧
      readTableCellsRec 5 badDb 64 2 = [] ∧
      readTableCellsFilteredRec 5 badDb 64 2 [1] = [] ∧
      fetchRowByRowidRec 5 badDb 64 2 7 = none ∧
      scanIndexRec 5 badDb 64 2 "x" = [] := by
  refine ⟨by decide, by decide, by decide, by decide, by decide⟩

/-- C4 witness: the amended theorem applied to the concrete bad-typed page. -/
theorem C4_witness :
    readTableCellsRec 5 badDb 64 2 = [] ∧
      readTableCellsFilteredRec 5 badDb 64 2 [1] = [] ∧
      fetchRowByRowidRec 5 badDb 64 2 7 = none ∧
      scanIndexRec 5 badDb 64 2 "x" = [] :=
  C4_unrecognized_page_silently_skipped 4 badDb 64 2 [1] 7 "x"
    (by decide) (by decide) (by decide) (by decide)

/-! Arithmetic bridge lemmas for the JS 32-bit bitwise operators. -/

theorem toUint32_coe (n : Nat) (h : n < 4294967296) : toUint32 (n : Int) = n := by
  unfold toUint32; omega

theorem ofInt32_small (n : Nat) (h : n < 2147483648) : ofInt32 n = n := by
  unfold ofInt32; rw [if_pos h]

theorem lor_add_of_lt (a b k : Nat) (h : b < 2 ^ k) : (a * 2 ^ k) ||| b = a * 2 ^ k + b := by
  rw [Nat.mul_comm a (2 ^ k)]
  exact (Nat.mul_add_lt_is_or h a).symm

theorem signed24_core (b0 b1 b2 : Nat) (h0 : b0 < 256) (h1 : b1 < 256) (h2 : b2 < 256) :
    (if jsAnd (jsOr (jsOr (jsShl (b0 : Int) 16) (jsShl (b1 : Int) 8)) (b2 : Int)) 8388608 ≠ 0
     then jsOr (jsOr (jsOr (jsShl (b0 : Int) 16) (jsShl (b1 : Int) 8)) (b2 : Int)) 4278190080
     else jsOr (jsOr (jsShl (b0 : Int) 16) (jsShl (b1 : Int) 8)) (b2 : Int)) =
      (if b0 * 65536 + b1 * 256 + b2 < 8388608 then ((b0 * 65536 + b1 * 256 + b2 : Nat) : Int)
       else ((b0 * 65536 + b1 * 256 + b2 : Nat) : Int) - 16777216) := by
  have e0 : jsShl (b0 : Int) 16 = ((b0 * 65536 : Nat) : Int) := by
    unfold jsShl
    rw [toUint32_coe b0 (by omega)]
    norm_num
    rw [Nat.mod_eq_of_lt (by omega)]
    unfold ofInt32
    rw [if_pos (by omega)]
    push_cast; ring
  have e1 : jsShl (b1 : Int) 8 = ((b1 * 256 : Nat) : Int) := by
    unfold jsShl
    rw [toUint32_coe b1 (by omega)]
    norm_num
    rw [Nat.mod_eq_of_lt (by omega)]
    unfold ofInt32
    rw [if_pos (by omega)]
    push_cast; ring
  have l1 : b0 * 65536 ||| b1 * 256 = b0 * 65536 + b1 * 256 := by
    have h := lor_add_of_lt b0 (b1 * 256) 16 (by norm_num; omega)
    norm_num at h
    exact h
  have e2 : jsOr ((b0 * 65536 : Nat) : Int) ((b1 * 256 : Nat) : Int) =
      ((b0 * 65536 + b1 * 256 : Nat) : Int) := by
    unfold jsOr
    rw [toUint32_coe _ (by omega), toUint32_coe _ (by omega), l1, ofInt32_small _ (by omega)]
  have l2 : (b0 * 65536 + b1 * 256) ||| b2 = b0 * 65536 + b1 * 256 + b2 := by
    have hrw : b0 * 65536 + b1 * 256 = (b0 * 256 + b1) * 256 := by ring
    have h := lor_add_of_lt (b0 * 256 + b1) b2 8 (by norm_num; omega)
    norm_num at h
    rw [hrw]
    exact h
  have e3 : jsOr ((b0 * 65536 + b1 * 256 : Nat) : Int) ((b2 : Nat) : Int) =
      ((b0 * 65536 + b1 * 256 + b2 : Nat) : Int) := by
    unfold jsOr
    rw [toUint32_coe _ (by omega), toUint32_coe _ (by omega), l2, ofInt32_small _ (by omega)]
  rw [e0, e1, e2, e3]
  set u := b0 * 65536 + b1 * 256 + b2 with hu
  have hu24 : u < 16777216 := by omega
  have t8 : toUint32 8388608 = 8388608 := by unfold toUint32; decide
  have t255 : toUint32 4278190080 = 4278190080 := by unfold toUint32; decide
  have land : u &&& 8388608 = if 8388608 ≤ u then 8388608 else 0 := by
    have h := Nat.and_two_pow u 23
    norm_num at h
    rw [h, Nat.testBit_to_div_mod]
    by_cases hc : 8388608 ≤ u
    · rw [if_pos hc]
      have hd : u / 8388608 % 2 = 1 := by omega
      norm_num [hd]
    · rw [if_neg hc]
      have hd : u / 8388608 % 2 = 0 := by omega
      norm_num [hd]
  have ea : jsAnd ((u : Nat) : Int) 8388608 = if 8388608 ≤ u then (8388608 : Int) else 0 := by
    unfold jsAnd
    rw [toUint32_coe _ (by omega), t8, land]
    by_cases hc : 8388608 ≤ u
    · rw [if_pos hc, if_pos hc, ofInt32_small _ (by omega)]; norm_num
    · rw [if_neg hc, if_neg hc, ofInt32_small _ (by omega)]; norm_num
  rw [ea]
  by_cases hc : 8388608 ≤ u
  · rw [if_pos hc]
    rw [if_neg (show ¬ u < 8388608 by omega)]
    rw [if_pos (show (8388608 : Int) ≠ 0 by norm_num)]
    have l3 : u ||| 4278190080 = u + 4278190080 := by
      have h := lor_add_of_lt 255 u 24 (by norm_num; omega)
      norm_num at h
      rw [Nat.lor_comm]
      omega
    unfold jsOr
    rw [toUint32_coe _ (by omega), t255, l3]
    unfold ofInt32
    rw [if_neg (by omega)]
    push_cast
    ring
  · rw [if_neg hc]
    rw [if_pos (show u < 8388608 by omega)]
    rw [if_neg (show ¬((0 : Int) ≠ 0) by norm_num)]

theorem signed24_eq (buffer : List Nat) (offset : Nat)
    (h0 : buffer.getD offset 0 < 256) (h1 : buffer.getD (offset + 1) 0 < 256)
    (h2 : buffer.getD (offset + 2) 0 < 256) :
    signed24 buffer offset =
      (if buffer.getD offset 0 * 65536 + buffer.getD (offset + 1) 0 * 256 +
          buffer.getD (offset + 2) 0 < 8388608
       then ((buffer.getD offset 0 * 65536 + buffer.getD (offset + 1) 0 * 256 +
          buffer.getD (offset + 2) 0 : Nat) : Int)
       else ((buffer.getD offset 0 * 65536 + buffer.getD (offset + 1) 0 * 256 +
          buffer.getD (offset + 2) 0 : Nat) : Int) - 16777216) := by
  simp only [signed24]
  exact signed24_core _ _ _ h0 h1 h2

theorem int48_core (b0 b1 b2 b3 b4 b5 : Nat) (_h0 : b0 < 256) (_h1 : b1 < 256)
    (h2 : b2 < 256) (h3 : b3 < 256) (h4 : b4 < 256) (h5 : b5 < 256) :
    (if b0 * 256 + b1 < 32768 then ((b0 * 256 + b1 : Nat) : Int)
       else ((b0 * 256 + b1 : Nat) : Int) - 65536) * 4294967296 +
      ((b2 * 16777216 + b3 * 65536 + b4 * 256 + b5 : Nat) : Int) =
      (if b0 * 1099511627776 + b1 * 4294967296 + b2 * 16777216 + b3 * 65536 + b4 * 256 + b5 <
          140737488355328
       then ((b0 * 1099511627776 + b1 * 4294967296 + b2 * 16777216 + b3 * 65536 + b4 * 256 +
          b5 : Nat) : Int)
       else ((b0 * 1099511627776 + b1 * 4294967296 + b2 * 16777216 + b3 * 65536 + b4 * 256 +
          b5 : Nat) : Int) - 281474976710656) := by
  split_ifs <;> push_cast <;> omega

/-- C5: decoding the 3-byte (code 3) and 6-byte (code 5) integer serial types
sign-extends the big-endian two's-complement bytes from their natural width to
the full numeric range; in particular the 3-byte sequence 0xFF 0xFF 0xFF
decodes to -1, not 16777215. -/
theorem C5_sign_extension :
    (∀ (buffer : List Nat) (offset : Nat),
      buffer.getD offset 0 < 256 → buffer.getD (offset + 1) 0 < 256 →
      buffer.getD (offset + 2) 0 < 256 →
      parseSerialValue buffer offset 3 =
        toString
          (if buffer.getD offset 0 * 65536 + buffer.getD (offset + 1) 0 * 256 +
              buffer.getD (offset + 2) 0 < 8388608
           then ((buffer.getD offset 0 * 65536 + buffer.getD (offset + 1) 0 * 256 +
              buffer.getD (offset + 2) 0 : Nat) : Int)
           else ((buffer.getD offset 0 * 65536 + buffer.getD (offset + 1) 0 * 256 +
              buffer.getD (offset + 2) 0 : Nat) : Int) - 16777216)) ∧
    (∀ (buffer : List Nat) (offset : Nat),
      buffer.getD offset 0 < 256 → buffer.getD (offset + 1) 0 < 256 →
      buffer.getD (offset + 2) 0 < 256 → buffer.getD (offset + 3) 0 < 256 →
      buffer.getD (offset + 4) 0 < 256 → buffer.getD (offset + 5) 0 < 256 →
      parseSerialValue buffer offset 5 =
        toString
          (if buffer.getD offset 0 * 1099511627776 + buffer.getD (offset + 1) 0 * 4294967296 +
              buffer.getD (offset + 2) 0 * 16777216 + buffer.getD (offset + 3) 0 * 65536 +
              buffer.getD (offset + 4) 0 * 256 + buffer.getD (offset + 5) 0 < 140737488355328
           then ((buffer.getD offset 0 * 1099511627776 + buffer.getD (offset + 1) 0 * 4294967296 +
              buffer.getD (offset + 2) 0 * 16777216 + buffer.getD (offset + 3) 0 * 65536 +
              buffer.getD (offset + 4) 0 * 256 + buffer.getD (offset + 5) 0 : Nat) : Int)
           else ((buffer.getD offset 0 * 1099511627776 + buffer.getD (offset + 1) 0 * 4294967296 +
              buffer.getD (offset + 2) 0 * 16777216 + buffer.getD (offset + 3) 0 * 65536 +
              buffer.getD (offset + 4) 0 * 256 + buffer.getD (offset + 5) 0 : Nat) : Int) -
             281474976710656)) ∧
    parseSerialValue [255, 255, 255] 0 3 = "-1" := by
  refine ⟨fun buffer offset h0 h1 h2 => ?_, fun buffer offset h0 h1 h2 h3 h4 h5 => ?_, by decide⟩
  · have r3 : parseSerialValue buffer offset 3 = toString (signed24 buffer offset) := rfl
    rw [r3, signed24_eq buffer offset h0 h1 h2]
  · have r5 : parseSerialValue buffer offset 5 =
        toString (getInt16 buffer offset * 4294967296 +
          (getUint32 buffer (offset + 2) : Nat) : Int) := rfl
    rw [r5]
    congr 1
    unfold getInt16 getUint16 getUint32
    exact int48_core (buffer.getD offset 0) (buffer.getD (offset + 1) 0)
      (buffer.getD (offset + 2) 0) (buffer.getD (offset + 3) 0)
      (buffer.getD (offset + 4) 0) (buffer.getD (offset + 5) 0) h0 h1 h2 h3 h4 h5


/-- C5 witness: the sign-extension theorem applied to the all-ones 3-byte and
6-byte buffers, where every byte hypothesis holds; both decode to "-1". -/
theorem C5_witness :
    parseSerialValue [255, 255, 255] 0 3 = "-1" ∧
      parseSerialValue [255, 255, 255, 255, 255, 255] 0 5 = "-1" := by
  constructor
  · rw [C5_sign_extension.1 [255, 255, 255] 0 (by decide) (by decide) (by decide)]; decide
  · rw [C5_sign_extension.2.1 [255, 255, 255, 255, 255, 255] 0 (by decide) (by decide)
      (by decide) (by decide) (by decide) (by decide)]
    decide

/-- The table-leaf loop returns the first parsed record in pointer order whose
row key equals the target. -/
theorem fetchLeafLoop_spec (db : List Nat) (pageOffset : Nat) (t : Int) (cells : List Nat) :
    fetchLeafLoop db pageOffset t cells =
      (cells.map (fun c => parseRecord (readCell db pageOffset c))).find?
        (fun r => decide (r.rowid = t)) := by
  induction cells with
  | nil => rfl
  | cons c rest ih =>
    simp only [fetchLeafLoop, List.map_cons, List.find?_cons]
    by_cases h : (parseRecord (readCell db pageOffset c)).rowid = t
    · simp [h]
    · simp [h, ih]

/-- The table-interior loop recurses into the left child of the first cell
whose key bound satisfies `t ≤ key`, and into the rightmost child when no cell
does. -/
theorem fetchInteriorLoop_spec (rec : Nat → Option Row) (db : List Nat) (pageOffset : Nat)
    (t : Int) (rightmost : Nat) (cells : List Nat) :
    fetchInteriorLoop rec db pageOffset t rightmost cells =
      (match cells.find? (fun c => decide (t ≤ tblKeyAt db pageOffset c)) with
       | some c => rec (tblChildAt db pageOffset c)
       | none => rec rightmost) := by
  induction cells with
  | nil => rfl
  | cons c rest ih =>
    simp only [fetchInteriorLoop, List.find?_cons, tblKeyAt, tblChildAt] at ih ⊢
    by_cases h : t ≤ (readVarint (sliceBuf db (pageOffset + c) 16) 4).1
    · rw [if_pos h]; simp [h]
    · rw [if_neg h]; simp [h, ih]

/-- C2: on a table-interior page (type 0x05) the point lookup examines cells in
pointer order and, at the first cell whose key `k` satisfies `t ≤ k`,
immediately returns the recursive lookup of that cell's left child, never
examining the remaining cells; if no cell qualifies it descends into the
rightmost child.  On a table-leaf page (type 0x0d) the result is the first
record in pointer order whose row key equals `t` exactly, else `none`. -/
theorem C2_table_point_lookup (fuel : Nat) (db : List Nat) (pageSize pageNum : Nat) (t : Int) :
    (readPageType db ((pageNum - 1) * pageSize) (pageNum == 1) = 5 →
      fetchRowByRowidRec (fuel + 1) db pageSize pageNum t =
        (match (readCellPointers db ((pageNum - 1) * pageSize) (pageNum == 1)
            (readPageHeader db ((pageNum - 1) * pageSize) (pageNum == 1)) true).find?
            (fun c => decide (t ≤ tblKeyAt db ((pageNum - 1) * pageSize) c)) with
         | some c =>
           fetchRowByRowidRec fuel db pageSize (tblChildAt db ((pageNum - 1) * pageSize) c) t
         | none =>
           fetchRowByRowidRec fuel db pageSize
             (readRightmostPointer db ((pageNum - 1) * pageSize) (pageNum == 1)) t)) ∧
    (readPageType db ((pageNum - 1) * pageSize) (pageNum == 1) = 13 →
      fetchRowByRowidRec (fuel + 1) db pageSize pageNum t =
        ((readCellPointers db ((pageNum - 1) * pageSize) (pageNum == 1)
            (readPageHeader db ((pageNum - 1) * pageSize) (pageNum == 1)) false).map
          (fun c => parseRecord (readCell db ((pageNum - 1) * pageSize) c))).find?
          (fun r => decide (r.rowid = t))) := by
  constructor
  · intro h
    simp only [fetchRowByRowidRec, h]
    simp only [if_true]
    exact fetchInteriorLoop_spec _ db _ t _ _
  · intro h
    simp only [fetchRowByRowidRec, h]
    simp only [if_true]
    exact fetchLeafLoop_spec db _ t _

/-- Filtering a mapped list is the conditional-singleton flat-map. -/
theorem filterOverMap {α β : Type} (p : β → Bool) (f : α → β) (l : List α) :
    (l.map f).filter p = l.flatMap fun a => if p (f a) then [f a] else [] := by
  induction l with
  | nil => rfl
  | cons a l ih =>
    simp only [List.map_cons, List.filter_cons, List.flatMap_cons]
    by_cases h : p (f a) <;> simp [h, ih]

/-- Filtering distributes over a flat-map. -/
theorem filterOverFlatMap {α β : Type} (p : β → Bool) (g : α → List β) (l : List α) :
    (l.flatMap g).filter p = l.flatMap fun a => (g a).filter p := by
  induction l with
  | nil => rfl
  | cons a l ih => simp [List.flatMap_cons, List.filter_append, ih]

/-- C8: the filtered scan visits the same tree as the full scan and keeps a
leaf record exactly when its row key is a member of the supplied key set — it
equals the full scan followed by a membership filter; in particular, on the
concrete single-page tree with row keys 1, 2, 3, filtering by the set {2, 3}
returns exactly the rows with keys 2 and 3 and excludes row 1. -/
theorem C8_filtered_scan :
    (∀ (fuel : Nat) (db : List Nat) (pageSize pageNum : Nat) (rowidSet : List Int),
      readTableCellsFilteredRec fuel db pageSize pageNum rowidSet =
        (readTableCellsRec fuel db pageSize pageNum).filter
          (fun r => rowidSet.contains r.rowid)) ∧
    readTableCellsFilteredRec 2 tableDb1 64 2 [2, 3] =
      [⟨2, ["ab"]⟩, ⟨3, ["ac"]⟩] ∧
    readTableCellsRec 2 tableDb1 64 2 = [⟨1, ["aa"]⟩, ⟨2, ["ab"]⟩, ⟨3, ["ac"]⟩] := by
  refine ⟨fun fuel => ?_, by decide, by decide⟩
  induction fuel with
  | zero => intro db ps p S; rfl
  | succ n ih =>
    intro db ps p S
    simp only [readTableCellsFilteredRec, readTableCellsRec]
    by_cases h13 : readPageType db ((p - 1) * ps) (p == 1) = 13
    · simp only [if_pos h13]
      exact (filterOverMap (fun r => S.contains r.rowid)
        (fun c => parseRecord (readCell db ((p - 1) * ps) c)) _).symm
    · simp only [if_neg h13]
      by_cases h5 : readPageType db ((p - 1) * ps) (p == 1) = 5
      · simp only [if_pos h5, List.filter_append, filterOverFlatMap]
        congr 1
        · exact List.flatMap_congr fun c _ => ih db ps _ S
        · exact ih db ps _ S
      · simp only [if_neg h5, List.filter_nil]

/-- C2 witness: the point-lookup theorem applied to the concrete two-level
table — the interior conjunct at the root (type 0x05) and the leaf conjunct at
page 3 (type 0x0d), with the page-type hypotheses discharged. -/
theorem C2_witness :
    fetchRowByRowidRec 3 tableDb2 64 2 3 = some ⟨3, ["ac"]⟩ ∧
      fetchRowByRowidRec 2 tableDb2 64 3 2 = some ⟨2, ["ab"]⟩ :=
  ⟨((C2_table_point_lookup 2 tableDb2 64 2 3).1 (by decide)).trans (by decide),
   ((C2_table_point_lookup 1 tableDb2 64 3 2).2 (by decide)).trans (by decide)⟩


/-- The index-leaf loop emits, per cell in pointer order, the parsed rowid
exactly when one was decoded and the indexed value equals the search value. -/
theorem scanIndexLeafLoop_spec (db : List Nat) (pageOffset : Nat) (v : String)
    (cells : List Nat) :
    scanIndexLeafLoop db pageOffset v cells =
      cells.flatMap (fun c =>
        match parseIndexEntry (readCell db pageOffset c) 0 with
        | (iv, some r) => if iv = v then [r] else []
        | (_, none) => []) := by
  induction cells with
  | nil => rfl
  | cons c rest ih =>
    simp only [scanIndexLeafLoop, List.flatMap_cons]
    cases hpe : parseIndexEntry (readCell db pageOffset c) 0 with
    | mk iv ro =>
      cases ro with
      | none => simpa using ih
      | some r =>
        by_cases h : iv = v
        · simp [h, ih]
        · simp [h, ih]

/-- C10: the index equality scan emits a row key for a leaf entry only when the
entry's record has at least two columns and the final column's serial type is
an integer code between 1 and 6: on an index-leaf page the scan keeps exactly
the entries whose decoded rowid is present (`some`) and whose first column
equals the search value, and `parseIndexEntry` produces a present rowid only
under that column-count and final-serial-type guard — a matching entry whose
final column has any other serial type contributes no row key. -/
theorem C10_index_leaf_rowid_guard :
    (∀ (fuel : Nat) (db : List Nat) (pageSize pageNum : Nat) (v : String),
      readPageType db ((pageNum - 1) * pageSize) (pageNum == 1) = 10 →
      scanIndexRec (fuel + 1) db pageSize pageNum v =
        (readCellPointers db ((pageNum - 1) * pageSize) (pageNum == 1)
            (readPageHeader db ((pageNum - 1) * pageSize) (pageNum == 1)) false).flatMap
          (fun c =>
            match parseIndexEntry (readCell db ((pageNum - 1) * pageSize) c) 0 with
            | (iv, some r) => if iv = v then [r] else []
            | (_, none) => [])) ∧
    (∀ (cellBuffer : List Nat) (startOffset : Nat),
      ((parseIndexEntry cellBuffer startOffset).2).isSome →
        (let p1 := readVarint cellBuffer startOffset
         let p2 := readVarint cellBuffer (startOffset + p1.2)
         let sts := (readSerialTypes cellBuffer (startOffset + p1.2 + p2.2)
           (startOffset + p1.2) p2.1).1
         2 ≤ sts.length ∧ 1 ≤ sts.getD (sts.length - 1) 0 ∧
           sts.getD (sts.length - 1) 0 ≤ 6)) := by
  constructor
  · intro fuel db pageSize pageNum v h
    simp only [scanIndexRec, h, if_true]
    exact scanIndexLeafLoop_spec db _ v _
  · intro cellBuffer startOffset h
    simp only [parseIndexEntry, Nat.add_sub_cancel] at h
    simp only []
    generalize hS : (readSerialTypes cellBuffer
        (startOffset + (readVarint cellBuffer startOffset).2 +
          (readVarint cellBuffer (startOffset + (readVarint cellBuffer startOffset).2)).2)
        (startOffset + (readVarint cellBuffer startOffset).2)
        (readVarint cellBuffer (startOffset + (readVarint cellBuffer startOffset).2)).1).1 =
      sts at h ⊢
    by_cases h1 : 2 ≤ sts.length
    · by_cases h2 : 1 ≤ sts.getD (sts.length - 1) 0 ∧ sts.getD (sts.length - 1) 0 ≤ 6 ∧
          0 < getSerialTypeSize (sts.getD (sts.length - 1) 0)
      · exact ⟨h1, h2.1, h2.2.1⟩
      · rw [if_pos h1, if_neg h2] at h
        simp at h
    · rw [if_neg h1] at h
      simp at h

/-- C10 witness: the leaf-page conjunct applied to the concrete index leaf
(page 3 of `indexDb`, type 0x0a), and the guard conjunct applied to its
"aa"-entry cell, whose rowid is present; the hypotheses are discharged by
evaluation. -/
theorem C10_witness :
    scanIndexRec 2 indexDb 64 3 "ab" = [2] ∧
      (2 ≤ 2 ∧ (1 : Int) ≤ 1 ∧ (1 : Int) ≤ 6) :=
  ⟨(C10_index_leaf_rowid_guard.1 1 indexDb 64 3 "ab" (by decide)).trans (by decide),
   C10_index_leaf_rowid_guard.2 [6, 3, 17, 1, 97, 97, 1] 0 (by decide)⟩


/-- Lexicographic character-list comparison is asymmetric. -/
theorem charListLt_asymm : ∀ (xs ys : List Char), charListLt xs ys = true → charListLt ys xs = false := by
  intro xs
  induction xs with
  | nil =>
    intro ys h
    cases ys with
    | nil => simp [charListLt] at h
    | cons d ds => simp [charListLt]
  | cons c cs ih =>
    intro ys h
    cases ys with
    | nil => simp [charListLt] at h
    | cons d ds =>
      simp only [charListLt] at h ⊢
      rcases Nat.lt_trichotomy c.toNat d.toNat with h1 | h1 | h1
      · rw [if_neg (show ¬(d.toNat < c.toNat) by omega),
          if_pos (show c.toNat < d.toNat by omega)]
      · rw [if_neg (show ¬(c.toNat < d.toNat) by omega),
          if_neg (show ¬(d.toNat < c.toNat) by omega)] at h
        rw [if_neg (show ¬(d.toNat < c.toNat) by omega),
          if_neg (show ¬(c.toNat < d.toNat) by omega)]
        exact ih ds h
      · rw [if_neg (show ¬(c.toNat < d.toNat) by omega),
          if_pos (show d.toNat < c.toNat by omega)] at h
        simp at h

/-- JS string order: `a < b` implies `a <= b`. -/
theorem jsStrLt_le (a b : String) (h : jsStrLt a b = true) : jsStrLe a b = true := by
  unfold jsStrLe jsStrLt
  unfold jsStrLt at h
  rw [charListLt_asymm a.data b.data h]
  rfl

/-- The head of a `dropWhile` result fails the predicate. -/
theorem dropWhile_head_not {α : Type} (p : α → Bool) (l : List α) (c : α) (rest : List α)
    (h : l.dropWhile p = c :: rest) : p c = false := by
  induction l with
  | nil => simp at h
  | cons a l ih =>
    rw [List.dropWhile_cons] at h
    by_cases hp : p a
    · rw [if_pos hp] at h
      exact ih h
    · rw [if_neg hp] at h
      cases h
      simpa using hp

/-- The index-interior loop, extensionally: up to the first cell whose key is
strictly greater than the search value, the left child of every cell with
`searchValue ≤ key` is descended in pointer order; at that first strictly
greater cell the loop descends its left child and stops with the found-greater
flag set; if no such cell exists the flag stays clear. -/
theorem scanIndexInteriorLoop_spec (rec : Nat → List Int) (db : List Nat) (pageOffset : Nat)
    (v : String) (cells : List Nat) :
    scanIndexInteriorLoop rec db pageOffset v cells =
      (match cells.dropWhile (fun c => !jsStrLt v (idxKeyAt db pageOffset c)) with
       | [] =>
         (((cells.takeWhile (fun c => !jsStrLt v (idxKeyAt db pageOffset c))).filter
             (fun c => jsStrLe v (idxKeyAt db pageOffset c))).flatMap
             (fun c => rec (idxChildAt db pageOffset c)), false)
       | c :: _ =>
         (((cells.takeWhile (fun c => !jsStrLt v (idxKeyAt db pageOffset c))).filter
             (fun c => jsStrLe v (idxKeyAt db pageOffset c))).flatMap
             (fun c => rec (idxChildAt db pageOffset c)) ++
           (if jsStrLe v (idxKeyAt db pageOffset c) then rec (idxChildAt db pageOffset c)
            else []), true)) := by
  induction cells with
  | nil => rfl
  | cons c rest ih =>
    simp only [scanIndexInteriorLoop, List.dropWhile_cons, List.takeWhile_cons,
      idxKeyAt, idxChildAt] at ih ⊢
    by_cases hlt : jsStrLt v (parseIndexEntry (sliceBuf db (pageOffset + c) 1000) 4).1
    · rw [if_pos hlt]
      simp [hlt]
    · rw [if_neg hlt]
      simp only [hlt, Bool.not_false, if_true, List.filter_cons]
      by_cases hle : jsStrLe v (parseIndexEntry (sliceBuf db (pageOffset + c) 1000) 4).1
      · simp only [hle, if_true, List.flatMap_cons, ih]
        cases hdrop : List.dropWhile
            (fun c => !jsStrLt v (parseIndexEntry (sliceBuf db (pageOffset + c) 1000) 4).1) rest with
        | nil => simp [hdrop]
        | cons c2 rest2 => simp [hdrop, List.append_assoc]
      · simp only [hle, if_false, ih]
        cases hdrop : List.dropWhile
            (fun c => !jsStrLt v (parseIndexEntry (sliceBuf db (pageOffset + c) 1000) 4).1) rest with
        | nil => simp [hdrop]
        | cons c2 rest2 => simp [hdrop]

/-- C1: on an index-interior page (type 0x02), processed in pointer order, the
scan descends the left child of every cell whose key `k` satisfies `v ≤ k`
(for `v` the search value); as soon as a cell with `v < k` strictly is
encountered, that cell's left child is descended (since `v < k` implies
`v ≤ k`), the remaining cells are never examined, and the rightmost child is
skipped; if the loop exhausts all cells without such a cell, the rightmost
child is also descended. -/
theorem C1_index_interior_pruning (fuel : Nat) (db : List Nat) (pageSize pageNum : Nat)
    (v : String)
    (h : readPageType db ((pageNum - 1) * pageSize) (pageNum == 1) = 2) :
    scanIndexRec (fuel + 1) db pageSize pageNum v =
      (((readCellPointers db ((pageNum - 1) * pageSize) (pageNum == 1)
            (readPageHeader db ((pageNum - 1) * pageSize) (pageNum == 1)) true).takeWhile
            (fun c => !jsStrLt v (idxKeyAt db ((pageNum - 1) * pageSize) c))).filter
          (fun c => jsStrLe v (idxKeyAt db ((pageNum - 1) * pageSize) c))).flatMap
          (fun c => scanIndexRec fuel db pageSize (idxChildAt db ((pageNum - 1) * pageSize) c) v) ++
        (match (readCellPointers db ((pageNum - 1) * pageSize) (pageNum == 1)
            (readPageHeader db ((pageNum - 1) * pageSize) (pageNum == 1)) true).dropWhile
            (fun c => !jsStrLt v (idxKeyAt db ((pageNum - 1) * pageSize) c)) with
         | [] =>
           scanIndexRec fuel db pageSize
             (readRightmostPointer db ((pageNum - 1) * pageSize) (pageNum == 1)) v
         | c :: _ =>
           scanIndexRec fuel db pageSize (idxChildAt db ((pageNum - 1) * pageSize) c) v) := by
  simp only [scanIndexRec, h]
  rw [scanIndexInteriorLoop_spec]
  cases hdrop : (readCellPointers db ((pageNum - 1) * pageSize) (pageNum == 1)
      (readPageHeader db ((pageNum - 1) * pageSize) (pageNum == 1)) true).dropWhile
      (fun c => !jsStrLt v (idxKeyAt db ((pageNum - 1) * pageSize) c)) with
  | nil => simp [hdrop]
  | cons c rest2 =>
    have hlt : jsStrLt v (idxKeyAt db ((pageNum - 1) * pageSize) c) = true := by
      have hc := dropWhile_head_not _ _ _ _ hdrop
      simpa using hc
    have hle := jsStrLt_le _ _ hlt
    simp [hdrop, hle]

/-- C1 witness: the pruning theorem applied to the interior root of the
concrete index tree (type 0x02) searching for "ab"; the scan of the pruned
child list evaluates to the single matching rowid 2. -/
theorem C1_witness : scanIndexRec 3 indexDb 64 2 "ab" = [2] :=
  (C1_index_interior_pruning 2 indexDb 64 2 "ab" (by decide)).trans (by decide)


/-- The specification-side body decoder yields exactly one value per serial
type. -/
theorem decodeValuesSpec_length (buffer : List Nat) :
    ∀ (sts : List Int) (off : Nat), (decodeValuesSpec buffer sts off).length = sts.length := by
  intro sts
  induction sts with
  | nil => intro off; rfl
  | cons st sts ih => intro off; simp [decodeValuesSpec, ih]

/-- The value-decoding fold of `parseRecord` equals the specification-side
recursion that advances the offset by each code's width. -/
theorem foldl_decodeValues (buffer : List Nat) :
    ∀ (sts : List Int) (acc : List String) (off : Nat),
      (sts.foldl (fun (a : List String × Nat) serialType =>
        (a.1 ++ [parseSerialValue buffer a.2 serialType],
          a.2 + getSerialTypeSize serialType)) (acc, off)).1 =
        acc ++ decodeValuesSpec buffer sts off := by
  intro sts
  induction sts with
  | nil => intro acc off; simp [decodeValuesSpec]
  | cons st sts ih =>
    intro acc off
    simp only [List.foldl_cons, decodeValuesSpec]
    rw [ih]
    simp

/-- C7: `parseRecord` returns the out-of-band row key (the second varint of the
cell) together with exactly one decoded value per serial-type code listed in
the record header, decoded from the body in header order with the running
offset advancing by exactly `getSerialTypeSize code` after each value; no
column is skipped or reordered. -/
theorem C7_record_decoding (buffer : List Nat) :
    (let p1 := readVarint buffer 0
     let p2 := readVarint buffer p1.2
     let p3 := readVarint buffer (p1.2 + p2.2)
     let sts := readSerialTypes buffer (p1.2 + p2.2 + p3.2) (p1.2 + p2.2) p3.1
     parseRecord buffer = ⟨p2.1, decodeValuesSpec buffer sts.1 sts.2⟩ ∧
       (parseRecord buffer).values.length = sts.1.length) := by
  simp only []
  have hmain : parseRecord buffer =
      ⟨(readVarint buffer (readVarint buffer 0).2).1,
        decodeValuesSpec buffer
          (readSerialTypes buffer
            ((readVarint buffer 0).2 + (readVarint buffer (readVarint buffer 0).2).2 +
              (readVarint buffer
                ((readVarint buffer 0).2 + (readVarint buffer (readVarint buffer 0).2).2)).2)
            ((readVarint buffer 0).2 + (readVarint buffer (readVarint buffer 0).2).2)
            (readVarint buffer
              ((readVarint buffer 0).2 + (readVarint buffer (readVarint buffer 0).2).2)).1).1
          (readSerialTypes buffer
            ((readVarint buffer 0).2 + (readVarint buffer (readVarint buffer 0).2).2 +
              (readVarint buffer
                ((readVarint buffer 0).2 + (readVarint buffer (readVarint buffer 0).2).2)).2)
            ((readVarint buffer 0).2 + (readVarint buffer (readVarint buffer 0).2).2)
            (readVarint buffer
              ((readVarint buffer 0).2 + (readVarint buffer (readVarint buffer 0).2).2)).1).2⟩ := by
    simp only [parseRecord, Nat.zero_add, Nat.add_sub_cancel]
    rw [foldl_decodeValues]
    simp
  refine ⟨hmain, ?_⟩
  rw [hmain]
  exact decodeValuesSpec_length buffer _ _


end STs
